import Mathlib

/-!
# Verification of the mkdocstrings TypeScript handler

A shallow embedding of `src/mkdocstrings_handlers/typescript/handler.py`.

Python strings are embedded as `List Char`.  Raw metadata values (the JSON
tree produced by the external `typedoc` invocation) are embedded as `PyVal`;
the attribute-addressable objects produced by the `Struct` wrapper are
embedded as `SVal`.  Fallible Python code (attribute access on objects that
may lack the attribute, subscripting, `None.items()`, file I/O) is embedded
with `Option` / `Except`: an `Except.error` value corresponds to a raised
Python exception.
-/

/-- A Python string. -/
abbrev PyStr := List Char

/-- Raw Python data as found in the `typedoc` JSON tree: scalars, ordered
sequences (`list` / `tuple`), sets, and string-keyed mappings (`dict`). -/
inductive PyVal where
  | str (s : PyStr)
  | int (n : Int)
  | bool (b : Bool)
  | null
  | list (l : List PyVal)
  | tuple (l : List PyVal)
  | set (l : List PyVal)
  | dict (fields : List (PyStr × PyVal))
deriving Repr

/-- Wrapped values produced by `Struct._wrap`: the same shapes, except that
every `dict` has been replaced by a `Struct` object (attribute-addressable
record). -/
inductive SVal where
  | str (s : PyStr)
  | int (n : Int)
  | bool (b : Bool)
  | null
  | list (l : List SVal)
  | tuple (l : List SVal)
  | set (l : List SVal)
  | struct (fields : List (PyStr × SVal))
deriving Repr

mutual

/-- Embedding of `Struct._wrap` (handler.py lines 142-146): tuples, lists and sets are
rebuilt with the same constructor around the wrapped elements; dicts become
`Struct` objects; everything else passes through unchanged. -/
def wrap : PyVal → SVal
  | .str s => .str s
  | .int n => .int n
  | .bool b => .bool b
  | .null => .null
  | .list l => .list (wrapList l)
  | .tuple l => .tuple (wrapList l)
  | .set l => .set (wrapList l)
  | .dict fields => .struct (wrapFields fields)

/-- Elementwise wrapping of a container's contents
(`[self._wrap(v) for v in value]`). -/
def wrapList : List PyVal → List SVal
  | [] => []
  | v :: vs => wrap v :: wrapList vs

/-- Embedding of `Struct.__init__` (handler.py lines 138-140): one attribute per dict
entry, each value wrapped. -/
def wrapFields : List (PyStr × PyVal) → List (PyStr × SVal)
  | [] => []
  | (k, v) :: fs => (k, wrap v) :: wrapFields fs

end

mutual

/-- Reading a wrapped value back: each attribute / element of the wrapped
graph, converted back to the raw shape it came from. -/
def unwrap : SVal → PyVal
  | .str s => .str s
  | .int n => .int n
  | .bool b => .bool b
  | .null => .null
  | .list l => .list (unwrapList l)
  | .tuple l => .tuple (unwrapList l)
  | .set l => .set (unwrapList l)
  | .struct fields => .dict (unwrapFields fields)

/-- Elementwise read-back of a container's contents. -/
def unwrapList : List SVal → List PyVal
  | [] => []
  | v :: vs => unwrap v :: unwrapList vs

/-- Fieldwise read-back of a `Struct` object's attributes. -/
def unwrapFields : List (PyStr × SVal) → List (PyStr × PyVal)
  | [] => []
  | (k, v) :: fs => (k, unwrap v) :: unwrapFields fs

end

/-- Container-kind tag of a raw value. -/
inductive ContainerKind where
  | scalar
  | ordList
  | ordTuple
  | unordSet
  | mapping
deriving Repr, DecidableEq

/-- The container kind of a raw Python value. -/
def kindP : PyVal → ContainerKind
  | .list _ => .ordList
  | .tuple _ => .ordTuple
  | .set _ => .unordSet
  | .dict _ => .mapping
  | _ => .scalar

/-- The container kind of a wrapped value (a `Struct` object plays the role
of the mapping it was built from). -/
def kindS : SVal → ContainerKind
  | .list _ => .ordList
  | .tuple _ => .ordTuple
  | .set _ => .unordSet
  | .struct _ => .mapping
  | _ => .scalar


/-- First-match lookup among the attributes of a `Struct` object
(Python `getattr`; attributes set later in `__init__` would overwrite, but
dict keys are unique, so first-match agrees). -/
def slookup : List (PyStr × SVal) → PyStr → Option SVal
  | [], _ => Option.none
  | (k, v) :: fs, key => if k = key then some v else slookup fs key

/-- First-match lookup of a key in a Python dict (`d[key]` succeeds iff this
is `some`). -/
def dlookup : List (PyStr × PyVal) → PyStr → Option PyVal
  | [], _ => Option.none
  | (k, v) :: fs, key => if k = key then some v else dlookup fs key

/-- Attribute access on a wrapped value: only `Struct` objects carry the
data attributes; access on anything else raises `AttributeError` (`none`). -/
def getattrS (v : SVal) (key : PyStr) : Option SVal :=
  match v with
  | .struct fields => slookup fields key
  | _ => Option.none

/-- What `collect` hands to `render`: the literal `{}` of handler.py line 55,
or the `Struct` object built on line 61. -/
inductive Item where
  | emptyDict
  | node (fields : List (PyStr × SVal))
deriving Repr

/-- Attribute access on a collected item: the raw `{}` dict has none of the
data attributes (`{}.comment` raises `AttributeError`). -/
def getattrI (data : Item) (key : PyStr) : Option SVal :=
  match data with
  | .emptyDict => Option.none
  | .node fields => slookup fields key

/-- Python `s.split(sep, 1)`: the part before the first occurrence of `sep`,
and — when `sep` occurs — `some` of everything after that first occurrence. -/
def splitFirst : List Char → Char → PyStr × Option PyStr
  | [], _ => ([], Option.none)
  | x :: xs, c =>
      if x = c then ([], some xs)
      else
        let r := splitFirst xs c
        (x :: r.1, r.2)


/-- The observable behaviour of one invocation of the external extraction
collaborator (`npx typedoc` plus the `docs.json` artifact it is supposed to
write), as seen by `gen_tsdoc`:
* `exitCode` — exit status of the typedoc process (`process.wait()`);
* `artifact` — `Option.none` when `docs.json` does not exist (opening it
  raises `FileNotFoundError`), `some Option.none` when it exists but is not
  valid JSON (`json.load` raises), and `some (some t)` when it parses to the
  metadata tree `t`. -/
structure ExtractEnv where
  exitCode : Int
  artifact : Option (Option PyVal)

/-- Embedding of `gen_tsdoc` (handler.py lines 155-169): runs typedoc, waits for it —
discarding `env.exitCode`, which the source never inspects — then opens and
parses `docs.json`.  The `package` argument is unused by the source body
(the working directory and entry point are hard-coded). -/
def gen_tsdoc (package : PyStr) (env : ExtractEnv) : Except String PyVal :=
  match env.artifact with
  | Option.none => .error "FileNotFoundError: docs.json"
  | some Option.none => .error "json.JSONDecodeError: docs.json"
  | some (some t) => .ok t

/-- One evaluation of `item['name'] == name`: subscripting a non-dict item
raises `TypeError`, a dict without the key raises `KeyError`, and comparing
a non-string value against the string `name` is `False` without error. -/
def nameMatches (item : PyVal) (name : PyStr) : Except String Bool :=
  match item with
  | .dict fields =>
      match dlookup fields "name".toList with
      | some (.str s) => .ok (decide (s = name))
      | some _ => .ok false
      | Option.none => .error "KeyError: name"
  | _ => .error "TypeError: item is not subscriptable"

/-- Embedding of `next((item for item in children if item['name'] == name), None)`: scan
left to right, propagating the exception of any predicate evaluation that is
reached, and stop at the first match. -/
def findByName : List PyVal → PyStr → Except String (Option PyVal)
  | [], _ => .ok Option.none
  | item :: rest, name => do
      let b ← nameMatches item name
      if b then pure (some item) else findByName rest name

/-- Embedding of `get_docs_data` (handler.py lines 149-152): extract, then search
`json['children']` for the first child whose `name` equals `name`.  In the
JSON produced by `json.load` the value under `children` is a list; any other
shape either raises on subscripting the items or is not iterable. -/
def get_docs_data (package : PyStr) (name : PyStr) (env : ExtractEnv) :
    Except String (Option PyVal) := do
  let j ← gen_tsdoc package env
  match j with
  | .dict fields =>
      match dlookup fields "children".toList with
      | some (.list items) => findByName items name
      | some (.tuple items) => findByName items name
      | some _ => .error "TypeError: children is not iterable"
      | Option.none => .error "KeyError: children"
  | _ => .error "TypeError: tree is not subscriptable"

/-- Embedding of `Struct(data)` on handler.py line 61: `data.items()` succeeds only for a
mapping.  `collect` reaches this either with the dict of the matched child,
or with `None` when no child matched — and `None.items()` raises
`AttributeError`. -/
def structOf : Option PyVal → Except String Item
  | some (.dict fields) => .ok (.node (wrapFields fields))
  | some _ => .error "AttributeError: object has no attribute items"
  | Option.none => .error "AttributeError: NoneType object has no attribute items"

/-- Embedding of `TypescriptHandler.collect` (handler.py lines 53-61), instrumented with
a flag recording whether the extraction collaborator was invoked: the
`':' not in identifier` guard returns the literal `{}` without extracting;
otherwise the identifier is split on the first `':'` and extraction runs. -/
def collectT (identifier : PyStr) (env : ExtractEnv) : Except String Item × Bool :=
  if ':' ∉ identifier then (.ok .emptyDict, false)
  else
    match (splitFirst identifier ':').2 with
    | Option.none => (.error "ValueError: not enough values to unpack", false)
    | some name =>
        ((do
          let data ← get_docs_data (splitFirst identifier ':').1 name env
          structOf data), true)

/-- Embedding of `TypescriptHandler.collect`: the collected item (or raised exception). -/
def collect (identifier : PyStr) (env : ExtractEnv) : Except String Item :=
  (collectT identifier env).1

/-- A configuration value (the recognized keys hold booleans and an int;
unrecognized caller keys are passed through, here as any of these shapes). -/
inductive CVal where
  | bool (b : Bool)
  | int (n : Int)
  | str (s : PyStr)
deriving Repr, DecidableEq

/-- A configuration mapping (a Python dict: keys unique, so first-match
lookup below agrees with dict lookup). -/
abbrev Config := List (PyStr × CVal)

/-- Dict lookup in a configuration mapping. -/
def cfgLookup : Config → PyStr → Option CVal
  | [], _ => Option.none
  | (k, v) :: fs, key => if k = key then some v else cfgLookup fs key

/-- Embedding of `TypescriptHandler.default_config` (handler.py lines 38-42). -/
def default_config : Config :=
  [("show_root_heading".toList, .bool false),
   ("show_root_toc_entry".toList, .bool true),
   ("heading_level".toList, .int 2)]

/-- Embedding of `{**self.default_config, **config}` (handler.py line 64): as a lookup
table, the merged dict finds the caller's value when the key is present in
`config` and the default otherwise; listing the caller's entries first gives
exactly that under first-match lookup. -/
def mergeConfig (config : Config) : Config := config ++ default_config

/-- The list comprehension `[summary.text for summary in ...]` of
handler.py line 173: read the `text` attribute of every fragment, left to
right, propagating the first `AttributeError`. -/
def fragmentTexts : List SVal → Except String (List SVal)
  | [] => .ok []
  | f :: fs =>
      match getattrS f "text".toList with
      | some t => do
          let r ← fragmentTexts fs
          pure (t :: r)
      | Option.none => .error "AttributeError: text"

/-- Embedding of `str.join` with the empty separator: concatenation of the
string elements in order; a non-string element raises `TypeError`. -/
def pyJoin : List SVal → Except String PyStr
  | [] => .ok []
  | .str t :: rest => do
      let r ← pyJoin rest
      pure (t ++ r)
  | _ :: _ => .error "TypeError: sequence item is not str"

/-- Iterating a wrapped Python value (`for m in v`): lists, tuples and sets
yield their elements, a string yields its characters as one-character
strings, anything else raises `TypeError`. -/
def pyIter (v : SVal) : Except String (List SVal) :=
  match v with
  | .list l => .ok l
  | .tuple l => .ok l
  | .set l => .ok l
  | .str s => .ok (s.map (fun ch => SVal.str [ch]))
  | _ => .error "TypeError: object is not iterable"

/-- Embedding of `get_summary` (handler.py lines 172-175): join the `text`
of each fragment of `data.comment.summary`. -/
def get_summary (data : Item) : Except String PyStr :=
  match getattrI data "comment".toList with
  | Option.none => .error "AttributeError: comment"
  | some c =>
      match getattrS c "summary".toList with
      | Option.none => .error "AttributeError: summary"
      | some sv => do
          let frags ← pyIter sv
          let texts ← fragmentTexts frags
          pyJoin texts

/-- One evaluation of `m.kind == 2048`: the attribute access may raise
`AttributeError`; Python `==` against the int literal treats `True` as `1`
and `False` as `0`, and any other non-numeric value compares unequal
without error. -/
def isKind2048 (m : SVal) : Except String Bool :=
  match getattrS m "kind".toList with
  | some (.int n) => .ok (decide (n = 2048))
  | some (.bool b) => .ok (decide ((if b then (1 : Int) else 0) = 2048))
  | some _ => .ok false
  | Option.none => .error "AttributeError: kind"

/-- The comprehension `[m for m in data.children if m.kind == 2048]`:
evaluate the predicate left to right, keeping matches in order. -/
def filterMethods : List SVal → Except String (List SVal)
  | [] => .ok []
  | m :: ms => do
      let b ← isKind2048 m
      let rest ← filterMethods ms
      pure (if b then m :: rest else rest)

/-- Embedding of `get_methods` (handler.py lines 177-178). -/
def get_methods (data : Item) : Except String (List SVal) :=
  match getattrI data "children".toList with
  | Option.none => .error "AttributeError: children"
  | some v => do
      let ms ← pyIter v
      filterMethods ms

/-- The keyword arguments assembled for `template.render` (handler.py
lines 67-76).  The template file itself (`foo.html`) is not part of the
repository's sources; the render contract is settled at this boundary:
these are exactly the values supplied to template evaluation. -/
structure TemplateArgs where
  config : Config
  cls : Item
  summary : PyStr
  heading_level : CVal
  root : Bool
  methods : List SVal
deriving Repr

/-- Embedding of `TypescriptHandler.render` (handler.py lines 63-78) up to the template
call: merge the configuration, read `heading_level` from the merged dict
(line 65), then evaluate the keyword arguments in source order — `summary`
(via `get_summary`) before `methods` (via `get_methods`); an exception in
any of them propagates out of `render`. -/
def render (data : Item) (config : Config) : Except String TemplateArgs :=
  match cfgLookup (mergeConfig config) "heading_level".toList with
  | Option.none => .error "KeyError: heading_level"
  | some hl =>
      match get_summary data with
      | .error e => .error e
      | .ok s =>
          match get_methods data with
          | .error e => .error e
          | .ok ms =>
              .ok { config := mergeConfig config, cls := data, summary := s,
                    heading_level := hl, root := true, methods := ms }

/-- Python `s.split(sep)` with a one-character separator and no maxsplit:
always at least one piece; `"".split(sep) == [""]`. -/
def splitAll : List Char → Char → List PyStr
  | [], _ => [[]]
  | x :: xs, c =>
      match splitAll xs c with
      | [] => [[x]]
      | p :: ps => if x = c then [] :: p :: ps else (x :: p) :: ps

/-- markupsafe's escaping of one character (`&`, `<`, `>`, the double quote
and the single quote). -/
def escapeChar (c : Char) : PyStr :=
  if c = '&' then "&amp;".toList
  else if c = '<' then "&lt;".toList
  else if c = '>' then "&gt;".toList
  else if c = Char.ofNat 34 then "&#34;".toList
  else if c = Char.ofNat 39 then "&#39;".toList
  else [c]

/-- markupsafe `escape` of a string, as `Markup.format` applies it to each
interpolated (non-`Markup`) argument. -/
def escape (s : PyStr) : PyStr := (s.map escapeChar).flatten

/-- The markup built by
`Markup("<span data-autorefs-optional-hover={full_path}>{path}</span>").format(full_path=..., path=...)`
(handler.py lines 107-109): the template literal with both interpolated
arguments escaped — the hover/lookup key first, the visible label second. -/
def spanMarkup (full_path label : PyStr) : PyStr :=
  "<span data-autorefs-optional-hover=".toList ++ escape full_path
    ++ ">".toList ++ escape label ++ "</span>".toList

/-- Embedding of `TypescriptHandler.do_crossref` (handler.py lines 94-109): keep the full
path as the lookup key; in brief mode the visible label is
`full_path.split(".")[-1]`. -/
def do_crossref (path : PyStr) (brief : Bool) : PyStr :=
  let full_path := path
  let label := if brief then (splitAll full_path '.').getLastD [] else path
  spanMarkup full_path label

/-- Modelled from the spec: “the substring after the last `.` in the path”
(§4.4), stated independently of the code's `split(".")[-1]` so the two can
be compared. -/
def afterLastDot (s : PyStr) : PyStr :=
  (s.reverse.takeWhile (fun ch => ch ≠ '.')).reverse



/-- The pure predicate underlying `m.kind == 2048` on members whose `kind`
attribute exists. -/
def kindIs2048 (m : SVal) : Bool :=
  match getattrS m "kind".toList with
  | some (.int n) => decide (n = 2048)
  | some (.bool b) => decide ((if b then (1 : Int) else 0) = 2048)
  | some _ => false
  | Option.none => false

/-- The `render` method child of the spec's §8 end-to-end example: a method
(typedoc kind 2048) with no comment. -/
def renderMethodDict : List (PyStr × PyVal) :=
  [("name".toList, .str "render".toList), ("kind".toList, .int 2048)]

/-- The `Button` class child of the spec's §8 end-to-end example: one
method member, no comment. -/
def buttonFieldsP : List (PyStr × PyVal) :=
  [("name".toList, .str "Button".toList),
   ("kind".toList, .int 128),
   ("children".toList, .list [.dict renderMethodDict])]

/-- A metadata tree with `Button` as its single top-level child. -/
def buttonTree : PyVal :=
  .dict [("children".toList, .list [.dict buttonFieldsP])]

/-- A well-behaved extraction: typedoc exits 0 and `docs.json` parses to
the Button tree. -/
def envOk : ExtractEnv := ⟨0, some (some buttonTree)⟩

/-- A failed extraction run: typedoc exits 1, but a stale parsable
`docs.json` is still present from an earlier run. -/
def envStale : ExtractEnv := ⟨1, some (some buttonTree)⟩

/-- A top-level child named `A`. -/
def aFieldsP : List (PyStr × PyVal) :=
  [("name".toList, .str "A".toList), ("kind".toList, .int 64)]

/-- A top-level child named `A.B` (a name legitimately containing a dot). -/
def abFieldsP : List (PyStr × PyVal) :=
  [("name".toList, .str "A.B".toList), ("kind".toList, .int 128)]

/-- A metadata tree whose top-level children are `A` first, then `A.B`: a
lookup for the name `A.B` must skip `A`. -/
def abTree : PyVal :=
  .dict [("children".toList, .list [.dict aFieldsP, .dict abFieldsP])]

/-- Extraction producing `abTree`. -/
def envAB : ExtractEnv := ⟨0, some (some abTree)⟩

/-- A caller configuration overriding `heading_level`. -/
def cfgCaller : Config := [("heading_level".toList, .int 5)]


/-- A small nested sample used as a concrete round-trip input. -/
def sampleDict : PyVal :=
  .dict [("k".toList, .int 7),
         ("xs".toList, .list [.str "a".toList, .set [.int 1, .int 2]]),
         ("sub".toList, .dict [("t".toList, .tuple [.bool true, .null])])]

/-! ## Theorems -/

mutual

theorem unwrap_wrap : (v : PyVal) → unwrap (wrap v) = v
  | .str _ => rfl
  | .int _ => rfl
  | .bool _ => rfl
  | .null => rfl
  | .list l => by rw [wrap, unwrap, unwrapList_wrapList l]
  | .tuple l => by rw [wrap, unwrap, unwrapList_wrapList l]
  | .set l => by rw [wrap, unwrap, unwrapList_wrapList l]
  | .dict fs => by rw [wrap, unwrap, unwrapFields_wrapFields fs]

theorem unwrapList_wrapList : (l : List PyVal) → unwrapList (wrapList l) = l
  | [] => rfl
  | v :: vs => by rw [wrapList, unwrapList, unwrap_wrap v, unwrapList_wrapList vs]

theorem unwrapFields_wrapFields :
    (fs : List (PyStr × PyVal)) → unwrapFields (wrapFields fs) = fs
  | [] => rfl
  | (k, v) :: fs => by
      rw [wrapFields, unwrapFields, unwrap_wrap v, unwrapFields_wrapFields fs]

end

theorem kindS_wrap (v : PyVal) : kindS (wrap v) = kindP v := by
  cases v <;> rfl

theorem splitFirst_mem (c : Char) :
    ∀ id : List Char, c ∈ id →
      ∃ rest, (splitFirst id c).2 = some rest ∧
        id = (splitFirst id c).1 ++ c :: rest ∧ c ∉ (splitFirst id c).1 := by
  intro id
  induction id with
  | nil => intro h; cases h
  | cons x xs ih =>
      intro h
      by_cases hx : x = c
      · subst hx
        exact ⟨xs, by simp [splitFirst]⟩
      · have hmem : c ∈ xs := by
          cases List.mem_cons.mp h with
          | inl h' => exact absurd h'.symm hx
          | inr h' => exact h'
        obtain ⟨rest, h1, h2, h3⟩ := ih hmem
        refine ⟨rest, ?_, ?_, ?_⟩
        · simp [splitFirst, hx, h1]
        · simp only [splitFirst, if_neg hx]
          simpa using h2
        · simp only [splitFirst, if_neg hx]
          intro hc
          cases List.mem_cons.mp hc with
          | inl h' => exact hx h'.symm
          | inr h' => exact h3 h'
theorem slookup_wrapFields (fs : List (PyStr × PyVal)) (key : PyStr) :
    slookup (wrapFields fs) key = (dlookup fs key).map wrap := by
  induction fs with
  | nil => rfl
  | cons f fs ih =>
      obtain ⟨k, v⟩ := f
      by_cases hk : k = key
      · simp [wrapFields, slookup, dlookup, hk]
      · simp [wrapFields, slookup, dlookup, hk, ih]

/-- C6: wrapping a finite acyclic value with the Object Model Wrapper and
reading everything back yields the original value; every container is
rebuilt with its original container kind, scalars pass through unchanged,
and each field of a wrapped mapping reads back as precisely the original
value under that key. -/
theorem struct_wrap_roundtrip (v : PyVal) :
    unwrap (wrap v) = v ∧ kindS (wrap v) = kindP v ∧
    (∀ fields key, v = .dict fields →
      (getattrS (wrap v) key).map unwrap = dlookup fields key) := by
  refine ⟨unwrap_wrap v, kindS_wrap v, ?_⟩
  rintro fields key rfl
  rw [wrap, getattrS, slookup_wrapFields]
  cases dlookup fields key with
  | none => rfl
  | some w => simp [unwrap_wrap]

theorem struct_wrap_roundtrip_witness :
    unwrap (wrap sampleDict) = sampleDict ∧
    kindS (wrap sampleDict) = kindP sampleDict ∧
    (getattrS (wrap sampleDict) "sub".toList).map unwrap =
      dlookup [("k".toList, .int 7),
               ("xs".toList, .list [.str "a".toList, .set [.int 1, .int 2]]),
               ("sub".toList, .dict [("t".toList, .tuple [.bool true, .null])])]
        "sub".toList :=
  ⟨(struct_wrap_roundtrip sampleDict).1, (struct_wrap_roundtrip sampleDict).2.1,
    (struct_wrap_roundtrip sampleDict).2.2 _ "sub".toList rfl⟩

/-- C1 (code bug): collecting a well-formed identifier whose name matches
no top-level child of the extracted tree does not return an empty result:
`get_docs_data` yields `None`, and `Struct(None)` evaluates `None.items()`,
which raises `AttributeError`. -/
theorem collect_not_found_raises :
    collect "pkg:Missing".toList envOk =
      Except.error "AttributeError: NoneType object has no attribute items" := rfl

/-- C2 (code bug): rendering the empty collection result `{}` does not
succeed: `get_summary({})` evaluates `{}.comment`, which raises
`AttributeError` before the template is ever consulted. -/
theorem render_empty_raises :
    render Item.emptyDict [] = Except.error "AttributeError: comment" := rfl

/-- C3 (code bug): on the spec's own §8 example — the collected `Button`
node, which has no comment — the summary supplied to the template is not
the empty string: `data.comment` raises `AttributeError` and `render`
propagates it. -/
theorem render_no_comment_raises :
    collect "ui:Button".toList envOk = Except.ok (Item.node (wrapFields buttonFieldsP)) ∧
    render (Item.node (wrapFields buttonFieldsP)) [] =
      Except.error "AttributeError: comment" := ⟨rfl, rfl⟩

/-- C9: an identifier without the `':'` separator makes `collect` return
the empty result `{}` immediately and without raising; the extraction
collaborator is not invoked — the instrumentation flag is `false` and the
outcome is independent of the extraction environment. -/
theorem collect_no_separator (id : PyStr) (env env' : ExtractEnv) (h : ':' ∉ id) :
    collectT id env = (Except.ok Item.emptyDict, false) ∧
    collect id env = collect id env' := by
  constructor
  · simp [collectT, h]
  · simp [collect, collectT, h]

theorem collect_no_separator_witness :
    (':' ∉ "Button".toList) ∧
    collectT "Button".toList envOk = (Except.ok Item.emptyDict, false) :=
  ⟨by decide, (collect_no_separator "Button".toList envOk envStale (by decide)).1⟩

/-- C5: for every identifier containing at least one `':'`, `collect`
splits on the first `':'` only: the identifier decomposes as
`package ++ ':' :: name` with a colon-free package part and `name` the
entire remainder (dots and further colons included), and collection
proceeds by extracting and then searching the top-level children for
exactly that `name`. -/
theorem collect_splits_on_first_colon (id : PyStr) (env : ExtractEnv)
    (h : ':' ∈ id) :
    ∃ name, (splitFirst id ':').2 = some name ∧
      id = (splitFirst id ':').1 ++ ':' :: name ∧
      ':' ∉ (splitFirst id ':').1 ∧
      collect id env = (get_docs_data (splitFirst id ':').1 name env >>= structOf) := by
  obtain ⟨rest, h1, h2, h3⟩ := splitFirst_mem ':' id h
  refine ⟨rest, h1, h2, h3, ?_⟩
  have hne : ¬ ':' ∉ id := fun hn => hn h
  simp [collect, collectT, hne, h1]

theorem collect_splits_on_first_colon_witness :
    (':' ∈ "pkg:A.B".toList) ∧
    (∃ name, (splitFirst "pkg:A.B".toList ':').2 = some name ∧
      "pkg:A.B".toList = (splitFirst "pkg:A.B".toList ':').1 ++ ':' :: name ∧
      ':' ∉ (splitFirst "pkg:A.B".toList ':').1 ∧
      collect "pkg:A.B".toList envAB =
        (get_docs_data (splitFirst "pkg:A.B".toList ':').1 name envAB >>= structOf)) ∧
    collect "pkg:A.B".toList envAB =
      Except.ok (Item.node [("name".toList, SVal.str "A.B".toList),
                            ("kind".toList, SVal.int 128)]) :=
  ⟨by decide, collect_splits_on_first_colon "pkg:A.B".toList envAB (by decide), rfl⟩

theorem except_bind_ok {α β ε : Type} (a : α) (f : α → Except ε β) :
    (Except.ok a >>= f) = f a := rfl

theorem except_bind_err {α β ε : Type} (e : ε) (f : α → Except ε β) :
    ((Except.error e : Except ε α) >>= f) = Except.error e := rfl

theorem structOf_ok_node (d : Option PyVal) (r : Item)
    (h : structOf d = Except.ok r) : ∃ fs, r = Item.node fs := by
  cases d with
  | none => simp [structOf] at h
  | some v =>
      cases v with
      | dict fields =>
          simp [structOf] at h
          exact ⟨wrapFields fields, h.symm⟩
      | str s => simp [structOf] at h
      | int n => simp [structOf] at h
      | bool b => simp [structOf] at h
      | null => simp [structOf] at h
      | list l => simp [structOf] at h
      | tuple l => simp [structOf] at h
      | set l => simp [structOf] at h

/-- C4 (amended): a missing output artifact and an unparsable output
artifact each propagate out of `gen_tsdoc` as a raised extraction error,
and an extraction failure is never reported as the empty "not found"
result (`collect` only ever returns `{}` for separator-less identifiers);
however the extraction process's exit status is never inspected — with a
parsable artifact present, extraction is treated as successful whatever
the exit code. -/
theorem gen_tsdoc_failure_propagation (package id : PyStr) (env : ExtractEnv) :
    (env.artifact = Option.none →
      gen_tsdoc package env = Except.error "FileNotFoundError: docs.json") ∧
    (env.artifact = some Option.none →
      gen_tsdoc package env = Except.error "json.JSONDecodeError: docs.json") ∧
    (∀ t, env.artifact = some (some t) → gen_tsdoc package env = Except.ok t) ∧
    (collect id env = Except.ok Item.emptyDict → ':' ∉ id) := by
  refine ⟨fun h => by simp [gen_tsdoc, h], fun h => by simp [gen_tsdoc, h],
    fun t h => by simp [gen_tsdoc, h], ?_⟩
  intro hok hmem
  obtain ⟨rest, h1, -, -⟩ := splitFirst_mem ':' id hmem
  have hne : ¬ ':' ∉ id := fun hn => hn hmem
  simp [collect, collectT, hne, h1] at hok
  cases hd : get_docs_data (splitFirst id ':').1 rest env with
  | error e =>
      rw [hd, except_bind_err] at hok
      exact Except.noConfusion hok
  | ok d =>
      rw [hd] at hok
      simp only [except_bind_ok] at hok
      obtain ⟨fs, hfs⟩ := structOf_ok_node d _ hok
      simp at hfs

/-- C4 (counterexample to the claim as stated): a non-zero typedoc exit
status with a stale parsable `docs.json` is not surfaced as an extraction
failure — `collect` succeeds as if extraction had worked. -/
theorem extraction_exit_code_ignored :
    envStale.exitCode = 1 ∧
    gen_tsdoc "pkg".toList envStale = Except.ok buttonTree ∧
    collect "pkg:Button".toList envStale =
      Except.ok (Item.node (wrapFields buttonFieldsP)) := ⟨rfl, rfl, rfl⟩

theorem gen_tsdoc_failure_propagation_witness :
    gen_tsdoc "pkg".toList ⟨0, Option.none⟩ =
      Except.error "FileNotFoundError: docs.json" ∧
    gen_tsdoc "pkg".toList ⟨0, some Option.none⟩ =
      Except.error "json.JSONDecodeError: docs.json" ∧
    (':' ∉ "Button".toList) :=
  ⟨(gen_tsdoc_failure_propagation "pkg".toList "x".toList ⟨0, Option.none⟩).1 rfl,
   (gen_tsdoc_failure_propagation "pkg".toList "x".toList ⟨0, some Option.none⟩).2.1 rfl,
   (gen_tsdoc_failure_propagation "pkg".toList "Button".toList envOk).2.2.2 rfl⟩

theorem cfgLookup_append_some (a b : Config) (k : PyStr) (v : CVal)
    (h : cfgLookup a k = some v) : cfgLookup (a ++ b) k = some v := by
  induction a with
  | nil => exact absurd h (by simp [cfgLookup])
  | cons p ps ih =>
      obtain ⟨k', v'⟩ := p
      by_cases hk : k' = k
      · simpa [cfgLookup, hk] using h
      · simp only [List.cons_append, cfgLookup, if_neg hk] at h ⊢
        exact ih h

theorem cfgLookup_append_none (a b : Config) (k : PyStr)
    (h : cfgLookup a k = Option.none) : cfgLookup (a ++ b) k = cfgLookup b k := by
  induction a with
  | nil => simp [cfgLookup]
  | cons p ps ih =>
      obtain ⟨k', v'⟩ := p
      by_cases hk : k' = k
      · simp [cfgLookup, hk] at h
      · simp only [List.cons_append, cfgLookup, if_neg hk] at h ⊢
        exact ih h

theorem render_ok_inv (data : Item) (config : Config) (args : TemplateArgs)
    (h : render data config = Except.ok args) :
    args.config = mergeConfig config ∧
    get_summary data = Except.ok args.summary ∧
    get_methods data = Except.ok args.methods := by
  unfold render at h
  cases hl : cfgLookup (mergeConfig config) "heading_level".toList with
  | none =>
      rw [hl] at h
      exact Except.noConfusion h
  | some v =>
      rw [hl] at h
      cases hs : get_summary data with
      | error e =>
          rw [hs] at h
          exact Except.noConfusion h
      | ok s =>
          rw [hs] at h
          cases hm : get_methods data with
          | error e =>
              rw [hm] at h
              exact Except.noConfusion h
          | ok ms =>
              rw [hm] at h
              have h' : Except.ok (TemplateArgs.mk (mergeConfig config) data s v
                  true ms) = Except.ok args := h
              cases h'
              exact ⟨rfl, rfl, rfl⟩

/-- C8: the effective configuration `{**default_config, **config}` used by
`render` maps every key present in the caller's mapping to the caller's
value and every absent key to its default-mapping value, with the defaults
`show_root_heading = false`, `show_root_toc_entry = true` and
`heading_level = 2`; whenever `render` succeeds, the configuration it
supplied to the template is exactly this merged mapping. -/
theorem render_effective_config (config : Config) (key : PyStr) :
    (∀ v, cfgLookup config key = some v →
      cfgLookup (mergeConfig config) key = some v) ∧
    (cfgLookup config key = Option.none →
      cfgLookup (mergeConfig config) key = cfgLookup default_config key) ∧
    cfgLookup default_config "show_root_heading".toList = some (.bool false) ∧
    cfgLookup default_config "show_root_toc_entry".toList = some (.bool true) ∧
    cfgLookup default_config "heading_level".toList = some (.int 2) ∧
    (∀ data args, render data config = Except.ok args →
      args.config = mergeConfig config) :=
  ⟨fun _ hv => cfgLookup_append_some _ _ _ _ hv,
   fun hn => cfgLookup_append_none _ _ _ hn, rfl, rfl, rfl,
   fun data args h => (render_ok_inv data config args h).1⟩

theorem render_effective_config_witness :
    cfgLookup (mergeConfig cfgCaller) "heading_level".toList = some (.int 5) ∧
    cfgLookup (mergeConfig cfgCaller) "show_root_toc_entry".toList =
      some (.bool true) ∧
    cfgLookup default_config "heading_level".toList = some (.int 2) :=
  ⟨(render_effective_config cfgCaller "heading_level".toList).1 (.int 5) rfl,
   ((render_effective_config cfgCaller "show_root_toc_entry".toList).2.1 rfl).trans
     (render_effective_config cfgCaller "show_root_toc_entry".toList).2.2.2.1,
   (render_effective_config cfgCaller "heading_level".toList).2.2.2.2.1⟩

theorem isKind2048_eq (m : SVal) (k : SVal)
    (h : getattrS m "kind".toList = some k) :
    isKind2048 m = Except.ok (kindIs2048 m) := by
  unfold isKind2048 kindIs2048
  rw [h]
  cases k <;> rfl

theorem filterMethods_eq (ms : List SVal)
    (h : ∀ m ∈ ms, ∃ k, getattrS m "kind".toList = some k) :
    filterMethods ms = Except.ok (ms.filter kindIs2048) := by
  induction ms with
  | nil => rfl
  | cons m rest ih =>
      obtain ⟨k, hk⟩ := h m (List.mem_cons_self m rest)
      have hr := ih (fun x hx => h x (List.mem_cons_of_mem m hx))
      unfold filterMethods
      rw [isKind2048_eq m k hk, except_bind_ok, hr, except_bind_ok]
      by_cases hb : kindIs2048 m
      · simp [pure, Except.pure, hb, List.filter_cons]
      · simp [pure, Except.pure, hb, List.filter_cons]

/-- C10: the member list `render` supplies to the template is exactly the
children whose `kind` equals 2048, kept in declaration order — a sublist of
`children`, with membership characterised by the kind test; no grouping or
alphabetical re-ordering happens at this stage. -/
theorem get_methods_filters_kind (fields : List (PyStr × SVal)) (ms : List SVal)
    (hch : slookup fields "children".toList = some (.list ms))
    (hk : ∀ m ∈ ms, ∃ k, getattrS m "kind".toList = some k) :
    get_methods (Item.node fields) = Except.ok (ms.filter kindIs2048) ∧
    (ms.filter kindIs2048).Sublist ms ∧
    (∀ m, m ∈ ms.filter kindIs2048 ↔ m ∈ ms ∧ kindIs2048 m) ∧
    (∀ cfg args, render (Item.node fields) cfg = Except.ok args →
      args.methods = ms.filter kindIs2048) := by
  have hg : get_methods (Item.node fields) = Except.ok (ms.filter kindIs2048) := by
    unfold get_methods
    have h1 : getattrI (Item.node fields) "children".toList = some (SVal.list ms) := hch
    rw [h1]
    exact filterMethods_eq ms hk
  refine ⟨hg, List.filter_sublist ms, fun m => by simp [List.mem_filter], ?_⟩
  intro cfg args h
  have h2 := (render_ok_inv _ cfg args h).2.2
  rw [hg] at h2
  exact (Except.ok.inj h2).symm

theorem get_methods_filters_kind_witness :
    get_methods (Item.node (wrapFields buttonFieldsP)) =
      Except.ok ((wrapList [.dict renderMethodDict]).filter kindIs2048) ∧
    ((wrapList [.dict renderMethodDict]).filter kindIs2048).Sublist
      (wrapList [.dict renderMethodDict]) ∧
    (∀ m, m ∈ (wrapList [.dict renderMethodDict]).filter kindIs2048 ↔
      m ∈ wrapList [.dict renderMethodDict] ∧ kindIs2048 m) ∧
    (∀ cfg args, render (Item.node (wrapFields buttonFieldsP)) cfg = Except.ok args →
      args.methods = (wrapList [.dict renderMethodDict]).filter kindIs2048) :=
  get_methods_filters_kind (wrapFields buttonFieldsP) (wrapList [.dict renderMethodDict])
    rfl
    (fun m hm => by
      simp [wrapList, wrap, wrapFields, renderMethodDict] at hm
      subst hm
      exact ⟨SVal.int 2048, rfl⟩)

theorem splitAll_ne_nil (s : List Char) (c : Char) : splitAll s c ≠ [] := by
  cases s with
  | nil => simp [splitAll]
  | cons x xs =>
      cases hr : splitAll xs c with
      | nil => simp [splitAll, hr]
      | cons p ps => by_cases hx : x = c <;> simp [splitAll, hr, hx]

theorem splitAll_last_spec (c : Char) (s : List Char) :
    c ∉ (splitAll s c).getLastD [] ∧
    (c ∈ s → ∃ u, s = u ++ c :: (splitAll s c).getLastD []) ∧
    (c ∉ s → splitAll s c = [s]) ∧
    (c ∈ s → (splitAll s c).tail ≠ []) := by
  induction s with
  | nil => exact ⟨by simp [splitAll], by simp, fun _ => rfl, by simp⟩
  | cons x xs ih =>
      obtain ⟨ihA, ihB, ihC, ihD⟩ := ih
      cases hr : splitAll xs c with
      | nil => exact absurd hr (splitAll_ne_nil xs c)
      | cons p ps =>
          rw [hr] at ihA ihB ihD
          by_cases hx : x = c
          · subst hx
            have hgoal : splitAll (x :: xs) x = [] :: p :: ps := by
              simp [splitAll, hr]
            refine ⟨?_, ?_, ?_, ?_⟩
            · rw [hgoal, List.getLastD_cons]
              exact ihA
            · intro _
              by_cases hm : x ∈ xs
              · obtain ⟨u, hu⟩ := ihB hm
                refine ⟨x :: u, ?_⟩
                rw [hgoal, List.getLastD_cons, List.cons_append]
                exact congrArg (List.cons x) hu
              · have h2 := ihC hm
                rw [hr] at h2
                injection h2 with hp hps
                subst hp
                subst hps
                refine ⟨[], ?_⟩
                rw [hgoal, List.getLastD_cons, List.getLastD_cons, List.getLastD_nil]
                rfl
            · intro hmem
              exact absurd (List.mem_cons_self x xs) hmem
            · intro _
              rw [hgoal]
              simp
          · have hgoal : splitAll (x :: xs) c = (x :: p) :: ps := by
              simp [splitAll, hr, hx]
            have hmx : c ∈ x :: xs → c ∈ xs := by
              intro hmem
              cases List.mem_cons.mp hmem with
              | inl h' => exact absurd h'.symm hx
              | inr h' => exact h'
            refine ⟨?_, ?_, ?_, ?_⟩
            · rw [hgoal]
              cases ps with
              | nil =>
                  rw [List.getLastD_cons, List.getLastD_nil]
                  rw [List.getLastD_cons, List.getLastD_nil] at ihA
                  intro hcm
                  cases List.mem_cons.mp hcm with
                  | inl h' => exact hx h'.symm
                  | inr h' => exact ihA h'
              | cons q qs =>
                  rw [List.getLastD_cons, List.getLastD_cons]
                  rw [List.getLastD_cons, List.getLastD_cons] at ihA
                  exact ihA
            · intro hm
              have hmxs := hmx hm
              have hps : ps ≠ [] := ihD hmxs
              cases ps with
              | nil => exact absurd rfl hps
              | cons q qs =>
                  obtain ⟨u, hu⟩ := ihB hmxs
                  refine ⟨x :: u, ?_⟩
                  rw [hgoal, List.getLastD_cons, List.getLastD_cons, List.cons_append]
                  rw [List.getLastD_cons, List.getLastD_cons] at hu
                  exact congrArg (List.cons x) hu
            · intro hm
              have h2 := ihC (fun hc => hm (List.mem_cons_of_mem x hc))
              rw [hr] at h2
              injection h2 with hp hps
              subst hp
              subst hps
              exact hgoal
            · intro hm
              have hps : ps ≠ [] := ihD (hmx hm)
              rw [hgoal]
              exact hps

theorem takeWhile_until (c : Char) (l u : List Char) (h : c ∉ l) :
    (l ++ c :: u).takeWhile (fun ch => decide (ch ≠ c)) = l := by
  rw [List.takeWhile_append_of_pos (by
    intro a ha
    simp only [decide_eq_true_eq]
    exact fun hac => h (hac ▸ ha))]
  rw [List.takeWhile_cons_of_neg (by simp)]
  simp

theorem afterLastDot_eq_splitLast (s : PyStr) (h : '.' ∈ s) :
    afterLastDot s = (splitAll s '.').getLastD [] := by
  obtain ⟨A, B, -, -⟩ := splitAll_last_spec '.' s
  obtain ⟨u, hu⟩ := B h
  have hrev : s.reverse =
      ((splitAll s '.').getLastD []).reverse ++ '.' :: u.reverse := by
    conv_lhs => rw [hu]
    simp [List.reverse_append, List.reverse_cons, List.append_assoc]
  unfold afterLastDot
  rw [hrev]
  rw [takeWhile_until _ _ _ (by simpa using A)]
  exact List.reverse_reverse _

/-- C7: `do_crossref` keeps the full dotted path as the lookup key in both
modes (it is the first argument interpolated into the hover attribute of
`spanMarkup`), and the visible label is the substring after the last `.` of
the path when `brief` is true and the full path when `brief` is false. -/
theorem do_crossref_label_and_key (path : PyStr) (h : '.' ∈ path) :
    do_crossref path true = spanMarkup path (afterLastDot path) ∧
    do_crossref path false = spanMarkup path path ∧
    (∃ u, path = u ++ '.' :: afterLastDot path) ∧
    '.' ∉ afterLastDot path := by
  have he := afterLastDot_eq_splitLast path h
  obtain ⟨A, B, -, -⟩ := splitAll_last_spec '.' path
  refine ⟨?_, rfl, ?_, ?_⟩
  · rw [he]
    rfl
  · obtain ⟨u, hu⟩ := B h
    exact ⟨u, by rw [he]; exact hu⟩
  · rw [he]
    exact A

theorem do_crossref_label_and_key_witness :
    ('.' ∈ "a.b.C".toList) ∧
    do_crossref "a.b.C".toList true =
      spanMarkup "a.b.C".toList (afterLastDot "a.b.C".toList) ∧
    do_crossref "a.b.C".toList true =
      "<span data-autorefs-optional-hover=a.b.C>C</span>".toList ∧
    do_crossref "a.b.C".toList false =
      "<span data-autorefs-optional-hover=a.b.C>a.b.C</span>".toList :=
  ⟨by decide, (do_crossref_label_and_key "a.b.C".toList (by decide)).1, rfl, rfl⟩
